import Mathlib

/-!
Verification development for the graph-visualization build script
(`graph_d3.py`).  The first half of the file embeds the Python
normalization pipeline (attribute resolution, coordinate extraction,
size model, bibtex/APA formatting) and the embedded JavaScript
interactive engine (filter evaluation, edge visibility, year slider,
search, initial zoom-to-fit) as executable Lean definitions.  The
second half states and proves theorems about those definitions.

Strings are modelled as Lean `String`/`List Char`; Python/JS lower-casing
is modelled for the ASCII range (the only range exercised by the
attribute conventions involved).  Numeric attribute values are modelled
as exact rationals; the finite decimal/exponent forms accepted by
Python `float` are parsed (the special forms `inf`/`nan`/underscore
separators are outside the attribute conventions modelled here).
-/

namespace GraphD3

/-- Single-quote character, used when assembling the HTML fragments. -/
def sq : Char := Char.ofNat 39

/-- Opening-brace character (bibtex value delimiter). -/
def obr : Char := Char.ofNat 123

/-- Closing-brace character (bibtex value delimiter). -/
def cbr : Char := Char.ofNat 125

/-- Double-quote character (alternative bibtex value delimiter). -/
def dq : Char := Char.ofNat 34

/-- Backslash character. -/
def bsl : Char := Char.ofNat 92

/-- ASCII lower-casing of one character, as Python `str.lower` and
JS `String.toLowerCase` act on the ASCII range. -/
def pyToLower (c : Char) : Char :=
  if 'A' ≤ c ∧ c ≤ 'Z' then Char.ofNat (c.toNat + 32) else c

/-- Lower-case a string (ASCII model of `.lower()` / `.toLowerCase()`). -/
def lowerS (s : String) : String := ⟨s.data.map pyToLower⟩

/-- Python whitespace class `\s` over the ASCII range: space, tab,
newline, carriage return, form feed, vertical tab. -/
def pyIsSpace (c : Char) : Bool :=
  c = ' ' || c = Char.ofNat 9 || c = Char.ofNat 10 || c = Char.ofNat 13 ||
  c = Char.ofNat 12 || c = Char.ofNat 11

/-- Strip leading and trailing whitespace from a character list
(model of Python `str.strip()`). -/
def pyStripL (l : List Char) : List Char :=
  ((l.dropWhile pyIsSpace).reverse.dropWhile pyIsSpace).reverse

/-- Strip leading and trailing whitespace from a string. -/
def pyStrip (s : String) : String := ⟨pyStripL s.data⟩

/-- Does `needle` occur as a contiguous run inside `hay`?  Model of the
JS `String.includes` / Python `in` substring test. -/
def occursIn (needle : List Char) : List Char → Bool
  | [] => needle.isEmpty
  | c :: rest => needle.isPrefixOf (c :: rest) || occursIn needle rest

/-- JS `hay.includes(sub)`. -/
def jsIncludes (hay sub : String) : Bool := occursIn sub.data hay.data

/-- Replace every non-overlapping occurrence of the pattern
`p :: ps` by `repl`, scanning left to right (model of Python
`str.replace` / repeated JS replace for a non-empty pattern).  Each
step consumes at least one character, so structural recursion on a fuel
of the input length is exact (the zero-fuel row is unreachable for a
non-empty input). -/
def replaceFrom (p : Char) (ps : List Char) (repl : List Char) : Nat → List Char → List Char
  | 0, l => l
  | _ + 1, [] => []
  | fuel + 1, c :: rest =>
      if (p :: ps).isPrefixOf (c :: rest) then
        repl ++ replaceFrom p ps repl fuel (rest.drop ps.length)
      else
        c :: replaceFrom p ps repl fuel rest

/-- Python `s.replace(pat, repl)` for a non-empty pattern. -/
def pyReplace (s pat repl : String) : String :=
  match pat.data with
  | [] => s
  | p :: ps => ⟨replaceFrom p ps repl.data s.data.length s.data⟩

/-- Split on a non-empty separator `p :: ps`; keeps empty pieces, as
Python `str.split(sep)` and JS `String.split` do.  Fueled like
`replaceFrom`. -/
def splitFrom (p : Char) (ps : List Char) : Nat → List Char → List (List Char)
  | 0, _ => [[]]
  | _ + 1, [] => [[]]
  | fuel + 1, c :: rest =>
      if (p :: ps).isPrefixOf (c :: rest) then
        [] :: splitFrom p ps fuel (rest.drop ps.length)
      else
        match splitFrom p ps fuel rest with
        | t :: ts => (c :: t) :: ts
        | [] => [[c]]

/-- Python `s.split(sep)` / JS `s.split(sep)` for a non-empty separator. -/
def pySplit (s sep : String) : List String :=
  match sep.data with
  | [] => [s]
  | p :: ps => (splitFrom p ps s.data.length s.data).map (fun l => ⟨l⟩)

/-- Python `sep.join(parts)`. -/
def pyJoin (sep : String) : List String → String
  | [] => ""
  | [s] => s
  | s :: rest => s ++ sep ++ pyJoin sep rest

/-!  AttributeResolver — translation of `pick_attr` (graph_d3.py:30-36).
An attribute bag is an association list with Python-dict key lookup
(keys unique in practice; lookup returns the first binding).  -/

/-- Attribute bag: string-keyed string values, in dict iteration order. -/
abbrev AttrBag := List (String × String)

/-- Python `attrs.get(k)`: the value bound to `k`, or `None`. -/
def bagGet (attrs : AttrBag) (k : String) : Option String :=
  (attrs.find? (fun p => p.1 == k)).map (fun p => p.2)

/-- Python dict-comprehension `{k.lower(): k for k in attrs}` followed by a
lookup: the binding written last wins, so the original key returned for a
lower-cased key is the last key of the bag with that lower-casing. -/
def lowerKeysGet (attrs : AttrBag) (lc : String) : Option String :=
  (attrs.reverse.find? (fun p => lowerS p.1 == lc)).map (fun p => p.1)

/-- First loop of `pick_attr`: first candidate whose value is present and
truthy (non-empty). -/
def pick_attr_pass1 (attrs : AttrBag) : List String → Option String
  | [] => none
  | c :: cs =>
      match bagGet attrs c with
      | some v => if v = "" then pick_attr_pass1 attrs cs else some v
      | none => pick_attr_pass1 attrs cs

/-- Second loop of `pick_attr`: first candidate whose lower-cased name is a
key of the lower-cased key table; returns that key's value (possibly
empty — no truthiness check in this pass). -/
def pick_attr_pass2 (attrs : AttrBag) : List String → Option String
  | [] => none
  | c :: cs =>
      match lowerKeysGet attrs (lowerS c) with
      | some k => bagGet attrs k
      | none => pick_attr_pass2 attrs cs

/-- `pick_attr(attrs, candidates)` (graph_d3.py:30-36): case-sensitive
truthy pass over the whole candidate list, then case-insensitive
key-presence pass, else `None`. -/
def pick_attr (attrs : AttrBag) (candidates : List String) : Option String :=
  match pick_attr_pass1 attrs candidates with
  | some v => some v
  | none => pick_attr_pass2 attrs candidates

/-!  Numeric parsing. -/

/-- Is the list a non-empty run of ASCII digits? -/
def digitsOnly (l : List Char) : Bool := !l.isEmpty && l.all (fun c => c.isDigit)

/-- Value of a run of ASCII digits. -/
def digitsToNat (l : List Char) : Nat :=
  l.foldl (fun a c => a * 10 + (c.toNat - 48)) 0

/-- Python `int(s)`: optional surrounding whitespace, optional sign, then a
non-empty digit run; `None` models the `ValueError` path.  (Underscore
digit separators, accepted by CPython, are not modelled.) -/
def pyIntParse (l : List Char) : Option Int :=
  match pyStripL l with
  | '+' :: r => if digitsOnly r then some (Int.ofNat (digitsToNat r)) else none
  | '-' :: r => if digitsOnly r then some (-(Int.ofNat (digitsToNat r))) else none
  | r => if digitsOnly r then some (Int.ofNat (digitsToNat r)) else none

/-- Take leading digits and return them with the remainder. -/
def spanDigits (l : List Char) : List Char × List Char :=
  (l.takeWhile (fun c => c.isDigit), l.dropWhile (fun c => c.isDigit))

/-- Optional sign prefix. -/
def splitSign : List Char → Int × List Char
  | '+' :: r => (1, r)
  | '-' :: r => (-1, r)
  | r => (1, r)

/-- Optional exponent suffix `e`/`E`, signed digits; `some 0` when empty. -/
def parseExp : List Char → Option Int
  | [] => some 0
  | c :: r =>
      if c = 'e' ∨ c = 'E' then
        let (es, r2) := splitSign r
        if digitsOnly r2 then some (es * Int.ofNat (digitsToNat r2)) else none
      else none

/-- Python `float(s)` on an already-stripped string, as an exact rational:
optional sign, decimal digits with an optional point (at least one digit
overall), optional exponent.  `inf`/`nan`/underscore forms are not
modelled; the attribute pipeline never relies on them. -/
def pyFloatParse (l : List Char) : Option ℚ :=
  let (sign, r0) := splitSign l
  let (ip, r1) := spanDigits r0
  match r1 with
  | '.' :: r2 =>
      let (fp, r3) := spanDigits r2
      if ip.isEmpty ∧ fp.isEmpty then none
      else
        match parseExp r3 with
        | some e =>
            some ((sign : ℚ) *
              ((digitsToNat ip : ℚ) + (digitsToNat fp : ℚ) / (10 : ℚ) ^ fp.length) *
              (10 : ℚ) ^ e)
        | none => none
  | r1' =>
      if ip.isEmpty then none
      else
        match parseExp r1' with
        | some e => some ((sign : ℚ) * (digitsToNat ip : ℚ) * (10 : ℚ) ^ e)
        | none => none

/-- `_as_float(v)` (graph_d3.py:38-43): `None` passes through; the string is
stripped, decimal commas become points, the empty string is `None`, and a
parse failure is swallowed to `None`. -/
def _as_float (v : Option String) : Option ℚ :=
  match v with
  | none => none
  | some s =>
      let t := (pyStripL s.data).map (fun c => if c = ',' then '.' else c)
      if t.isEmpty then none else pyFloatParse t

/-- Python truthiness of `attrs.get(k)`: present with a non-empty value. -/
def attrTruthy (attrs : AttrBag) (k : String) : Bool :=
  match bagGet attrs k with
  | some v => v ≠ ""
  | none => false

/-- Coordinate key-pair conventions tried by `extract_xy`. -/
def xyPairs : List (String × String) :=
  [("x", "y"), ("X", "Y"), ("viz:position.x", "viz:position.y"), ("pos_x", "pos_y")]

/-- Inner loop of `extract_xy`. -/
def extract_xy_go (attrs : AttrBag) : List (String × String) → Option (Option ℚ × Option ℚ)
  | [] => none
  | (kx, ky) :: rest =>
      if attrTruthy attrs kx && attrTruthy attrs ky then
        some (_as_float (bagGet attrs kx), _as_float (bagGet attrs ky))
      else extract_xy_go attrs rest

/-- `extract_xy(attrs)` (graph_d3.py:45-50): the first key pair whose raw
values are both truthy yields a tuple of parse results — a tuple is
returned (and is truthy in Python) even when a component fails to
parse.  `none` models the Python `None` returned when no pair matches. -/
def extract_xy (attrs : AttrBag) : Option (Option ℚ × Option ℚ) :=
  extract_xy_go attrs xyPairs

/-- Positioning part of the module-level node loop (graph_d3.py:139-141):
`x = xy[0] if xy else 0.0` and `y = -xy[1] if xy else 0.0`.  When
`extract_xy` returned a tuple, the tuple is truthy, so `xy[1]` is negated
unconditionally — negating `None` raises `TypeError`, modelled as
`Except.error`.  A `None` x-component raises nothing and flows into the
node record (serialized as JSON `null`), modelled as `none`. -/
def node_xy (attrs : AttrBag) : Except String (Option ℚ × ℚ) :=
  match extract_xy attrs with
  | none => Except.ok (some 0, 0)
  | some (fx, fy) =>
      match fy with
      | none => Except.error "TypeError: bad operand type for unary -: NoneType"
      | some qy => Except.ok (fx, -qy)

/-!  BibtexParser / APAFormatter — translation of `clean_tex`, `get_field`
and `format_apa_html` (graph_d3.py:55-120). -/

/-- Collapse every whitespace run to a single space
(Python `re.sub` of the whitespace-run pattern by one space), fueled
like `replaceFrom`. -/
def collapseWsF : Nat → List Char → List Char
  | 0, _ => []
  | _ + 1, [] => []
  | fuel + 1, c :: rest =>
      if pyIsSpace c then ' ' :: collapseWsF fuel (rest.dropWhile pyIsSpace)
      else c :: collapseWsF fuel rest

/-- Collapse every whitespace run to a single space. -/
def collapseWs (l : List Char) : List Char := collapseWsF l.length l

/-- `clean_tex(text)` (graph_d3.py:55-59): drop all braces, collapse
whitespace runs, strip the ends. -/
def clean_tex (text : String) : String :=
  if text = "" then ""
  else ⟨pyStripL (collapseWs (text.data.filter (fun c => c ≠ obr ∧ c ≠ cbr)))⟩

/-- Case-insensitive literal prefix match, returning the remainder
(the `re.IGNORECASE` treatment of the field-name part of the pattern). -/
def dropPrefixCI : List Char → List Char → Option (List Char)
  | [], s => some s
  | _ :: _, [] => none
  | k :: ks, c :: cs =>
      if pyToLower k = pyToLower c then dropPrefixCI ks cs else none

/-- Scan of `(.*?)(?<!\\)[}"]` in DOTALL mode: grow the capture one
character at a time (non-greedy), closing at the first `}` or `"` whose
preceding character (initially the opening delimiter) is not a
backslash; no closing delimiter means no match. -/
def scanVal (prev : Char) (acc : List Char) : List Char → Option (List Char)
  | [] => none
  | c :: rest =>
      if (c = cbr ∨ c = dq) ∧ prev ≠ bsl then some acc.reverse
      else scanVal c (c :: acc) rest

/-- Attempt the whole pattern `key\s*=\s*[{"](.*?)(?<!\\)[}"]` at the head
of `s` (key case-insensitively, `\s*` maximal, one opening delimiter). -/
def matchKeyAt (key : List Char) (s : List Char) : Option (List Char) :=
  match dropPrefixCI key s with
  | none => none
  | some r1 =>
      match r1.dropWhile pyIsSpace with
      | '=' :: r3 =>
          match r3.dropWhile pyIsSpace with
          | c :: r5 => if c = obr ∨ c = dq then scanVal c [] r5 else none
          | [] => none
      | _ => none

/-- Leftmost-match search of the pattern over the entry
(Python `re.search`). -/
def reSearch (key : List Char) : List Char → Option (List Char)
  | [] => none
  | c :: rest =>
      match matchKeyAt key (c :: rest) with
      | some v => some v
      | none => reSearch key rest

/-- `get_field(entry_str, keys)` (graph_d3.py:61-68): first key (in order)
whose pattern matches anywhere in the entry wins; the captured value is
cleaned; no match at all gives the empty string. -/
def get_field (entry : String) (keys : List String) : String :=
  match keys with
  | [] => ""
  | k :: ks =>
      match reSearch k.data entry.data with
      | some v => clean_tex ⟨v⟩
      | none => get_field entry ks

/-- Year contribution of one entry (graph_d3.py:115-118):
`y = int(year[:4]) if year else 0`, appended only when `y > 0`; a parse
failure is swallowed by the bare `except` and contributes nothing. -/
def year_of_entry (year : String) : Option Int :=
  match (if year = "" then some 0 else pyIntParse (year.data.take 4)) with
  | some y => if 0 < y then some y else none
  | none => none

/-- The string `'` as a `String`. -/
def sqS : String := String.singleton sq

/-- Per-entry body of the `format_apa_html` loop (graph_d3.py:79-118):
field extraction, the plain APA string, the styled HTML fragment with the
copy button, the flattened search line, and the optional year. -/
def process_entry (entry : String) : String × String × Option Int :=
  let author := get_field entry ["author"]
  let year := get_field entry ["year", "date"]
  let title := get_field entry ["title"]
  let journal := get_field entry ["journal", "booktitle", "series"]
  let volume := get_field entry ["volume"]
  let issue := get_field entry ["number"]
  let pages := get_field entry ["pages"]
  let doi := get_field entry ["doi"]
  let plain := author ++ " (" ++ year ++ "). " ++ title ++ ". " ++ journal
  let plain := if volume ≠ "" then plain ++ ", " ++ volume else plain
  let plain := if issue ≠ "" then plain ++ "(" ++ issue ++ ")" else plain
  let plain := if pages ≠ "" then plain ++ ", " ++ pages else plain
  let plain :=
    if doi ≠ "" then
      plain ++ ". https://doi.org/" ++ pyReplace doi ("https://doi.org/") ""
    else plain
  let citation := "<span class=" ++ sqS ++ "apa-author" ++ sqS ++ ">" ++ author ++ "</span>"
  let citation := if year ≠ "" then citation ++ " (" ++ year ++ ")" else citation
  let citation := citation ++ ". "
  let citation :=
    if title ≠ "" then
      citation ++ "<span class=" ++ sqS ++ "apa-title" ++ sqS ++ ">" ++ title ++ "</span>. "
    else citation
  let citation :=
    if journal ≠ "" then
      let c := citation ++ "<i class=" ++ sqS ++ "apa-journal" ++ sqS ++ ">" ++ journal ++ "</i>"
      let c := if volume ≠ "" then c ++ ", <i>" ++ volume ++ "</i>" else c
      let c := if issue ≠ "" then c ++ "(" ++ issue ++ ")" else c
      let c := if pages ≠ "" then c ++ ", " ++ pages else c
      c ++ ". "
    else citation
  let citation :=
    if doi ≠ "" then
      let link := "https://doi.org/" ++ pyReplace doi ("https://doi.org/") ""
      citation ++ " <a href=" ++ sqS ++ link ++ sqS ++ " target=" ++ sqS ++ "_blank" ++ sqS ++
        " class=" ++ sqS ++ "apa-doi" ++ sqS ++ ">" ++ link ++ "</a>"
    else citation
  let plain_escaped :=
    pyReplace (pyReplace plain sqS (String.singleton bsl ++ sqS)) "\n" " "
  let citation :=
    "<div class=" ++ sqS ++ "apa-entry" ++ sqS ++ ">" ++ citation ++
    "<button class=" ++ sqS ++ "copy-btn" ++ sqS ++ " onclick=" ++ String.singleton dq ++
    "copyAPA(" ++ sqS ++ plain_escaped ++ sqS ++ ")" ++ String.singleton dq ++
    ">Copy APA</button></div>"
  (citation, author ++ " " ++ year ++ " " ++ title ++ " " ++ journal, year_of_entry year)

/-- Accumulator step of the `format_apa_html` entry loop: whitespace-only
entries are skipped (`if not entry.strip(): continue`), the rest append
their fragment, search line and optional year. -/
def apa_step (acc : String × List String × List Int) (entry : String) :
    String × List String × List Int :=
  if pyStrip entry = "" then acc
  else
    match process_entry entry with
    | (html, search, yr) =>
        (acc.1 ++ html, acc.2.1 ++ [search],
         acc.2.2 ++ (match yr with | some y => [y] | none => []))

/-- `format_apa_html(raw_bibtex)` (graph_d3.py:70-120): a `None`, empty, or
(case-insensitively) `"none"` input short-circuits to the empty triple;
otherwise the blob is split on `" || "` and folded entry by entry; the
search lines are joined with `" | "`. -/
def format_apa_html (raw_bibtex : Option String) : String × String × List Int :=
  match raw_bibtex with
  | none => ("", "", [])
  | some raw =>
      if raw = "" ∨ lowerS raw = ("none") then ("", "", [])
      else
        match (pySplit raw (" || ")).foldl apa_step ("", [], []) with
        | (html_output, search_texts, years) =>
            (html_output, pyJoin (" | ") search_texts, years)

/-!  SizeModel — translation of the radius / font-size computation of the
module-level node loop (graph_d3.py:135-137), over the reals.  The
configured constants are `NODE_SIZE_MULT = 0.8`, `NODE_SIZE_ADD = 1.0`,
`NODE_SIZE_POWER = 1.05`, `LABEL_SCALE = 0.35`, `MIN_FONT_SIZE = 8`. -/

/-- Python `int()` applied to a real: truncation toward zero. -/
noncomputable def pyInt (x : ℝ) : ℤ := if 0 ≤ x then ⌊x⌋ else ⌈x⌉

/-- `radius = (max(0, raw_size) ** 1.05) * 0.8 + 1.0` (graph_d3.py:136). -/
noncomputable def radius (raw_size : ℝ) : ℝ :=
  (max 0 raw_size) ^ ((21 : ℝ) / 20) * (4 / 5) + 1

/-- `font_size = max(8, int(math.log1p(radius) * 0.35 * 10))`
(graph_d3.py:137). -/
noncomputable def font_size (r : ℝ) : ℤ :=
  max 8 (pyInt (Real.log (1 + r) * ((7 : ℝ) / 20 * 10)))

/-!  ClientState — translation of the embedded JavaScript: node/edge
visibility (`applyFilters`, graph_d3.py:597-613), the node colour rule
feeding it (graph_d3.py:143-145), the year slider handlers
(graph_d3.py:634-645), the search handler (graph_d3.py:667-698) and the
initial zoom-to-fit (graph_d3.py:712-721). -/

/-- A node of the serialized canonical model, with the fields the
interactive engine reads. -/
structure JNode where
  id : String
  label : String
  type : String
  x : ℚ
  y : ℚ
  searchText : String
  minYear : Option Int
  maxYear : Option Int
  deriving Repr, DecidableEq

/-- An edge of the serialized canonical model. -/
structure JEdge where
  source : String
  target : String
  deriving Repr, DecidableEq

/-- The colour category the Python build assigns (graph_d3.py:143-145):
case-insensitive substring match against the node type, first rule wins,
default Other. -/
inductive ColorCat where
  | Subtopic
  | Author
  | Other
  deriving Repr, DecidableEq

/-- Colour-category rule of the module-level node loop. -/
def colorCategory (ntype : String) : ColorCat :=
  if jsIncludes (lowerS ntype) ("subtopic") then ColorCat.Subtopic
  else if jsIncludes (lowerS ntype) ("author") then ColorCat.Author
  else ColorCat.Other

/-- The boolean filter state of the client engine. -/
structure Filters where
  subtopic : Bool
  author : Bool
  other : Bool
  yearFrom : Int
  yearTo : Int
  deriving Repr, DecidableEq

/-- JS truthiness of `d.minYear`: `null` and `0` are falsy. -/
def jsTruthyYear (o : Option Int) : Bool :=
  match o with
  | none => false
  | some y => y != 0

/-- JS numeric coercion used by `>=` / `<=`: `null` compares as `0`. -/
def jsNum (o : Option Int) : Int := o.getD 0

/-- The `typeOk` expression of `applyFilters` (graph_d3.py:600-603): a
disjunction of per-filter substring tests on the lower-cased type. -/
def typeOk (f : Filters) (n : JNode) : Bool :=
  (f.subtopic && jsIncludes (lowerS n.type) ("subtopic")) ||
  (f.author && jsIncludes (lowerS n.type) ("author")) ||
  (f.other && !(jsIncludes (lowerS n.type) ("subtopic")) &&
    !(jsIncludes (lowerS n.type) ("author")))

/-- The `yearOk` expression of `applyFilters` (graph_d3.py:604):
`!d.minYear || (d.maxYear >= yearFrom && d.minYear <= yearTo)`. -/
def yearOk (f : Filters) (n : JNode) : Bool :=
  !(jsTruthyYear n.minYear) ||
  (decide (f.yearFrom ≤ jsNum n.maxYear) && decide (jsNum n.minYear ≤ f.yearTo))

/-- Node visibility computed by `applyFilters` (graph_d3.py:605). -/
def nodeVisible (f : Filters) (n : JNode) : Bool := typeOk f n && yearOk f n

/-- The hidden-id set `applyFilters` collects (graph_d3.py:609-610). -/
def hiddenIds (ns : List JNode) (f : Filters) : List String :=
  (ns.filter (fun n => !(nodeVisible f n))).map (fun n => n.id)

/-- Edge visibility computed by `applyFilters` (graph_d3.py:611): hidden
exactly when an endpoint id is in the hidden-id set — an id that does not
occur among the nodes is never in that set. -/
def edgeVisible (ns : List JNode) (f : Filters) (e : JEdge) : Bool :=
  !((hiddenIds ns f).contains e.source || (hiddenIds ns f).contains e.target)

/-- Modelled from the spec wording of claim C2: a node is visible iff the
boolean derived from its colorCategory is enabled and the year filter
passes.  Kept for comparison with the code's `nodeVisible`. -/
def colorEnabled (f : Filters) (c : ColorCat) : Bool :=
  match c with
  | ColorCat.Subtopic => f.subtopic
  | ColorCat.Author => f.author
  | ColorCat.Other => f.other

/-- Modelled from the spec wording of claim C2 (spec §4.6): visibility
decided by the colorCategory-derived boolean. -/
def specNodeVisible (f : Filters) (n : JNode) : Bool :=
  colorEnabled f (colorCategory n.type) && yearOk f n

/-- Modelled from the spec wording of claim C3 (spec §4.6): an edge is
visible iff both endpoint ids resolve to currently-visible nodes, a
missing id counting as a non-visible endpoint. -/
def specEdgeVisible (ns : List JNode) (f : Filters) (e : JEdge) : Bool :=
  (match ns.find? (fun n => n.id == e.source) with
   | some n => nodeVisible f n
   | none => false) &&
  (match ns.find? (fun n => n.id == e.target) with
   | some n => nodeVisible f n
   | none => false)

/-- Modelled from the spec wording of claim C4 (spec §4.1): both passes of
the attribute resolver treat empty values as absent. -/
def spec_pick_attr (attrs : AttrBag) (candidates : List String) : Option String :=
  match candidates.findSome? (fun c =>
      match bagGet attrs c with
      | some v => if v = "" then none else some v
      | none => none) with
  | some v => some v
  | none =>
      candidates.findSome? (fun c =>
        match lowerKeysGet attrs (lowerS c) with
        | some k =>
            match bagGet attrs k with
            | some v => if v = "" then none else some v
            | none => none
        | none => none)

/-!  Year-range slider (graph_d3.py:634-645). -/

/-- The year-range part of the interactive state. -/
structure SliderState where
  yearFrom : Int
  yearTo : Int
  deriving Repr, DecidableEq

/-- The `sliderFrom` input handler: set `yearFrom` to the dragged value
and clamp `yearTo` up to it when overtaken. -/
def sliderFromInput (s : SliderState) (v : Int) : SliderState :=
  if v > s.yearTo then ⟨v, v⟩ else ⟨v, s.yearTo⟩

/-- The `sliderTo` input handler: set `yearTo` to the dragged value and
clamp `yearFrom` down to it when overtaken. -/
def sliderToInput (s : SliderState) (v : Int) : SliderState :=
  if v < s.yearFrom then ⟨v, v⟩ else ⟨s.yearFrom, v⟩

/-!  Search (graph_d3.py:667-698). -/

/-- Kind of a search result row. -/
inductive MatchKind where
  | node
  | paper
  deriving Repr, DecidableEq

/-- One search result row. -/
structure SearchResult where
  node : JNode
  matchKind : MatchKind
  snippet : String
  deriving Repr, DecidableEq

/-- The `forEach` result-collection loop of the search handler
(graph_d3.py:671-679): label match first, else flattened-search-text
match with the first matching `" | "`-separated part, truncated to 80
characters, as snippet. -/
def searchLoop (q : String) : List JNode → List SearchResult
  | [] => []
  | n :: ns =>
      if jsIncludes (lowerS n.label) q then
        ⟨n, MatchKind.node, ""⟩ :: searchLoop q ns
      else if n.searchText ≠ "" && jsIncludes (lowerS n.searchText) q then
        ⟨n, MatchKind.paper,
          ⟨(((pySplit n.searchText (" | ")).find?
              (fun p => jsIncludes (lowerS p) q)).getD "").data.take 80⟩⟩ ::
          searchLoop q ns
      else searchLoop q ns

/-- The rows the handler renders: `results.slice(0, 30)`
(graph_d3.py:683). -/
def searchRender (ns : List JNode) (q : String) : List SearchResult :=
  (searchLoop q ns).take 30

/-!  Initial zoom-to-fit (graph_d3.py:712-721). -/

/-- JS division, with a non-finite result (`Infinity`/`NaN`, from a zero
denominator) modelled as `none`. -/
def jsDiv (a b : ℚ) : Option ℚ := if b = 0 then none else some (a / b)

/-- The load-time viewport-fit scale
`0.85 / max((maxX-minX)/W, (maxY-minY)/H)` over the node bounding box;
`none` models a non-finite result (empty node list, or zero denominator). -/
def bboxScale (ns : List JNode) (W H : ℚ) : Option ℚ :=
  match ns with
  | [] => none
  | n :: rest =>
      let minX := (rest.map (fun m => m.x)).foldl min n.x
      let maxX := (rest.map (fun m => m.x)).foldl max n.x
      let minY := (rest.map (fun m => m.y)).foldl min n.y
      let maxY := (rest.map (fun m => m.y)).foldl max n.y
      jsDiv (17 / 20) (max ((maxX - minX) / W) ((maxY - minY) / H))

/-!  Theorems. -/

/-- Left fold of `min` over a constant list is the start value. -/
theorem foldl_min_const (l : List ℚ) (a : ℚ) (h : ∀ b ∈ l, b = a) :
    l.foldl min a = a := by
  induction l with
  | nil => rfl
  | cons b t ih =>
      have hb : b = a := h b (by simp)
      have ht : ∀ c ∈ t, c = a := fun c hc => h c (by simp [hc])
      simp [hb, ih ht]

/-- Left fold of `max` over a constant list is the start value. -/
theorem foldl_max_const (l : List ℚ) (a : ℚ) (h : ∀ b ∈ l, b = a) :
    l.foldl max a = a := by
  induction l with
  | nil => rfl
  | cons b t ih =>
      have hb : b = a := h b (by simp)
      have ht : ∀ c ∈ t, c = a := fun c hc => h c (by simp [hc])
      simp [hb, ih ht]

/-- C1: the normalization pipeline is claimed total, with unresolvable
coordinates degrading to the origin.  The code contradicts this: when a
coordinate pair is present but the y value is unparseable, `extract_xy`
returns a truthy tuple holding `None` and the node loop's `y = -xy[1]`
raises `TypeError` instead of defaulting; only a fully absent pair
degrades to the origin. -/
theorem node_xy_raises_on_unparseable_y :
    node_xy [("x", "10"), ("y", "abc")] =
      Except.error "TypeError: bad operand type for unary -: NoneType" ∧
    node_xy [("x", "abc"), ("y", "abc")] =
      Except.error "TypeError: bad operand type for unary -: NoneType" ∧
    node_xy [] = Except.ok (some 0, 0) ∧
    node_xy [("x", ""), ("y", "")] = Except.ok (some 0, 0) := by
  refine ⟨rfl, rfl, rfl, rfl⟩

/-- C9: both year-slider handlers re-establish `yearFrom ≤ yearTo` from
any state, and an overtaking drag clamps the opposite handle to the
dragged value instead of rejecting the gesture. -/
theorem slider_invariant (s : SliderState) (v : Int) :
    (sliderFromInput s v).yearFrom ≤ (sliderFromInput s v).yearTo ∧
    (sliderToInput s v).yearFrom ≤ (sliderToInput s v).yearTo ∧
    (v > s.yearTo → sliderFromInput s v = ⟨v, v⟩) ∧
    (v < s.yearFrom → sliderToInput s v = ⟨v, v⟩) := by
  unfold sliderFromInput sliderToInput
  refine ⟨?_, ?_, ?_, ?_⟩
  · split
    · simp
    · simp; omega
  · split
    · simp
    · simp; omega
  · intro h; rw [if_pos h]
  · intro h; rw [if_pos h]

/-- C9 witness: a from-handle drag past the to-handle at a concrete
state clamps the to-handle. -/
theorem slider_invariant_witness :
    (2020 > 2010 ∧ sliderFromInput ⟨2000, 2010⟩ 2020 = ⟨2020, 2020⟩) ∧
    (1995 < 2000 ∧ sliderToInput ⟨2000, 2010⟩ 1995 = ⟨1995, 1995⟩) :=
  ⟨⟨by omega, (slider_invariant ⟨2000, 2010⟩ 2020).2.2.1 (by decide)⟩,
   ⟨by omega, (slider_invariant ⟨2000, 2010⟩ 1995).2.2.2 (by decide)⟩⟩

/-- C10: the load-time viewport-fit scale has no guard against a
degenerate bounding box: whenever every node shares one x and one y
coordinate (a single-node model included), the denominator is zero and
the scale is not a finite number. -/
theorem bboxScale_degenerate (n : JNode) (rest : List JNode) (W H : ℚ)
    (h : ∀ m ∈ n :: rest, m.x = n.x ∧ m.y = n.y) :
    bboxScale (n :: rest) W H = none := by
  unfold bboxScale
  have hx : ∀ b ∈ rest.map (fun m => m.x), b = n.x := by
    intro b hb
    rcases List.mem_map.1 hb with ⟨m, hm, rfl⟩
    exact (h m (by simp [hm])).1
  have hy : ∀ b ∈ rest.map (fun m => m.y), b = n.y := by
    intro b hb
    rcases List.mem_map.1 hb with ⟨m, hm, rfl⟩
    exact (h m (by simp [hm])).2
  simp only [foldl_min_const _ _ hx, foldl_max_const _ _ hx,
    foldl_min_const _ _ hy, foldl_max_const _ _ hy]
  simp [jsDiv]

/-- C10 witness: a single node at a concrete position yields a
non-finite scale for a concrete viewport. -/
theorem bboxScale_degenerate_witness :
    bboxScale [⟨"s", "l", "", 5, 6, "", none, none⟩] 100 200 = none :=
  bboxScale_degenerate ⟨"s", "l", "", 5, 6, "", none, none⟩ [] 100 200 (by decide)

/-- On nonnegative inputs the Python truncation is the floor. -/
theorem pyInt_nonneg (x : ℝ) (h : 0 ≤ x) : pyInt x = ⌊x⌋ := if_pos h

/-- C5: the size model satisfies `radius 0 < radius 10 < radius 100`;
every radius the pipeline produces is at least 1; and the font size is a
total function of the radius that never drops below the configured
minimum 8 and is non-decreasing on the nonnegative radii (which cover
everything the pipeline can feed it). -/
theorem size_model_props :
    radius 0 < radius 10 ∧ radius 10 < radius 100 ∧
    (∀ raw : ℝ, 1 ≤ radius raw) ∧
    (∀ r : ℝ, 8 ≤ font_size r) ∧
    (∀ r s : ℝ, 0 ≤ r → r ≤ s → font_size r ≤ font_size s) := by
  have hpow : (0 : ℝ) < 21 / 20 := by norm_num
  refine ⟨?_, ?_, ?_, ?_, ?_⟩
  · unfold radius
    rw [max_self, max_eq_right (by norm_num : (0 : ℝ) ≤ 10)]
    rw [Real.zero_rpow (by norm_num : (21 : ℝ) / 20 ≠ 0)]
    have h10 : (0 : ℝ) < (10 : ℝ) ^ ((21 : ℝ) / 20) :=
      Real.rpow_pos_of_pos (by norm_num) _
    nlinarith
  · unfold radius
    rw [max_eq_right (by norm_num : (0 : ℝ) ≤ 10),
        max_eq_right (by norm_num : (0 : ℝ) ≤ 100)]
    have h : (10 : ℝ) ^ ((21 : ℝ) / 20) < (100 : ℝ) ^ ((21 : ℝ) / 20) :=
      Real.rpow_lt_rpow (by norm_num) (by norm_num) hpow
    nlinarith
  · intro raw
    unfold radius
    have h : (0 : ℝ) ≤ (max 0 raw) ^ ((21 : ℝ) / 20) :=
      Real.rpow_nonneg (le_max_left 0 raw) _
    nlinarith
  · intro r
    exact le_max_left _ _
  · intro r s hr hrs
    unfold font_size
    have h1r : (0 : ℝ) < 1 + r := by linarith
    have hlogr : 0 ≤ Real.log (1 + r) := Real.log_nonneg (by linarith)
    have hlogs : 0 ≤ Real.log (1 + s) := Real.log_nonneg (by linarith)
    have hc : (0 : ℝ) ≤ (7 : ℝ) / 20 * 10 := by norm_num
    rw [pyInt_nonneg _ (mul_nonneg hlogr hc), pyInt_nonneg _ (mul_nonneg hlogs hc)]
    have hlog : Real.log (1 + r) ≤ Real.log (1 + s) :=
      Real.log_le_log h1r (by linarith)
    exact max_le_max (le_refl 8) (Int.floor_le_floor (by nlinarith))

/-- C5 witness: the ordering facts are closed; the monotonicity part
applied at a concrete pair of radii. -/
theorem size_model_props_witness :
    radius 0 < radius 10 ∧ ((0 : ℝ) ≤ 1 ∧ (1 : ℝ) ≤ 2 ∧ font_size 1 ≤ font_size 2) :=
  ⟨size_model_props.1,
   by norm_num, by norm_num,
   size_model_props.2.2.2.2 1 2 (by norm_num) (by norm_num)⟩

/-- C6: per citation entry, the year contribution parses the first four
characters of the year field, survives only a successful and strictly
positive parse, never raises, and a failed parse leaves the rest of the
entry intact (the entry still yields its search line). -/
theorem year_extraction :
    year_of_entry ("2021-05-01") = some 2021 ∧
    year_of_entry ("n.d.") = none ∧
    year_of_entry ("") = none ∧
    year_of_entry ("0000") = none ∧
    (∀ s y, year_of_entry s = some y →
        0 < y ∧ s ≠ "" ∧ pyIntParse (s.data.take 4) = some y) ∧
    (format_apa_html
        (some ("author = \x7bA\x7d, year = \x7bnd\x7d, title = \x7bT\x7d, journal = \x7bJ\x7d"))).2 =
      ("A nd T J", []) := by
  refine ⟨by decide, by decide, by decide, by decide, ?_, by decide⟩
  intro s y h
  unfold year_of_entry at h
  split at h
  next z heq =>
    split at h
    next hz =>
      cases h
      by_cases hs : s = ""
      · rw [if_pos hs] at heq
        cases heq
        exact absurd hz (by decide)
      · rw [if_neg hs] at heq
        exact ⟨hz, hs, heq⟩
    next hz => exact absurd h (by simp)
  next heq => exact absurd h (by simp)

/-- C6 witness: the general characterization applied to the dated year
string, whose parse the claim's first example pins down. -/
theorem year_extraction_witness :
    year_of_entry ("2021-05-01") = some 2021 ∧
    ((0 : Int) < 2021 ∧ ("2021-05-01" : String) ≠ "" ∧
      pyIntParse (("2021-05-01" : String).data.take 4) = some 2021) :=
  ⟨by decide, year_extraction.2.2.2.2.1 ("2021-05-01") 2021 (by decide)⟩

/-- A fold of the entry loop over only whitespace-only entries leaves the
accumulator unchanged. -/
theorem apa_fold_skip (es : List String) (acc : String × List String × List Int)
    (h : ∀ e ∈ es, pyStrip e = "") : es.foldl apa_step acc = acc := by
  induction es generalizing acc with
  | nil => rfl
  | cons e t ih =>
      have he : pyStrip e = "" := h e (by simp)
      have ht : ∀ x ∈ t, pyStrip x = "" := fun x hx => h x (by simp [hx])
      simp only [List.foldl_cons]
      rw [show apa_step acc e = acc from by unfold apa_step; rw [if_pos he]]
      exact ih acc ht

/-- C7: an empty or (case-insensitively) `"none"` bibliographic input
yields exactly the empty triple, and delimiter-separated entries that are
empty or whitespace-only are skipped without contributing output. -/
theorem format_apa_empty_guard :
    format_apa_html (some "") = ("", "", []) ∧
    format_apa_html (some ("none")) = ("", "", []) ∧
    format_apa_html (some ("NoNe")) = ("", "", []) ∧
    format_apa_html (some ("NONE")) = ("", "", []) ∧
    format_apa_html none = ("", "", []) ∧
    (∀ raw, raw ≠ "" → lowerS raw ≠ ("none") →
        (∀ e ∈ pySplit raw (" || "), pyStrip e = "") →
        format_apa_html (some raw) = ("", "", [])) := by
  refine ⟨by decide, by decide, by decide, by decide, rfl, ?_⟩
  intro raw h1 h2 h3
  show (if raw = "" ∨ lowerS raw = ("none") then ("", "", [])
        else
          match (pySplit raw (" || ")).foldl apa_step ("", [], []) with
          | (html_output, search_texts, years) =>
              (html_output, pyJoin (" | ") search_texts, years)) =
      ("", "", [])
  rw [if_neg (not_or.2 ⟨h1, h2⟩)]
  rw [apa_fold_skip _ _ h3]
  rfl

/-- C7 witness: the general skip property applied to a delimiter-only
blob, whose two split pieces are both empty. -/
theorem format_apa_empty_guard_witness :
    (" || " : String) ≠ "" ∧ lowerS (" || ") ≠ ("none") ∧
    (∀ e ∈ pySplit (" || ") (" || "), pyStrip e = "") ∧
    format_apa_html (some (" || ")) = ("", "", []) :=
  ⟨by decide, by decide, by decide,
   format_apa_empty_guard.2.2.2.2.2 (" || ") (by decide) (by decide) (by decide)⟩

/-- C2 counterexample: a node whose type contains both "subtopic" and
"author" has colorCategory Subtopic (first rule wins), yet with the
subtopic filter disabled and the author filter enabled the code still
shows it — visibility is not the claimed function of the
colorCategory-derived boolean. -/
theorem visibility_not_colorCategory_driven :
    nodeVisible ⟨false, true, true, 1990, 2025⟩
        ⟨"1", "L", "Subtopic Author", 0, 0, "", none, none⟩ = true ∧
    colorCategory ("Subtopic Author") = ColorCat.Subtopic ∧
    specNodeVisible ⟨false, true, true, 1990, 2025⟩
        ⟨"1", "L", "Subtopic Author", 0, 0, "", none, none⟩ = false := by
  refine ⟨by decide, by decide, by decide⟩

/-- C2 amended: a node is visible iff the year filter passes and either
its colorCategory's own filter is enabled, or it is a Subtopic-category
node whose type also contains "author" while the author filter is
enabled (the code tests the three substring clauses independently);
consequently disabling exactly the author filter hides every
colorCategory-Author node and leaves every Subtopic and Other node
exactly as visible as with all filters enabled. -/
theorem visibility_characterization :
    (∀ (f : Filters) (n : JNode),
        nodeVisible f n = true ↔
          ((colorEnabled f (colorCategory n.type) = true ∨
            (colorCategory n.type = ColorCat.Subtopic ∧ f.author = true ∧
              jsIncludes (lowerS n.type) ("author") = true)) ∧
           yearOk f n = true)) ∧
    (∀ (yF yT : Int) (n : JNode),
        (colorCategory n.type = ColorCat.Author →
          nodeVisible ⟨true, false, true, yF, yT⟩ n = false) ∧
        (colorCategory n.type ≠ ColorCat.Author →
          nodeVisible ⟨true, false, true, yF, yT⟩ n =
            nodeVisible ⟨true, true, true, yF, yT⟩ n)) := by
  constructor
  · intro f n
    unfold nodeVisible typeOk colorCategory colorEnabled
    cases hs : jsIncludes (lowerS n.type) ("subtopic") <;>
      cases ha : jsIncludes (lowerS n.type) ("author") <;>
        simp [hs, ha]
  · intro yF yT n
    unfold nodeVisible typeOk colorCategory
    cases hs : jsIncludes (lowerS n.type) ("subtopic") <;>
      cases ha : jsIncludes (lowerS n.type) ("author") <;>
        simp [hs, ha, yearOk]

/-- C2 witness: the characterization applied to a concrete
Author-category node with the author filter disabled. -/
theorem visibility_characterization_witness :
    colorCategory (("Author" : String)) = ColorCat.Author ∧
    nodeVisible ⟨true, false, true, 1990, 2025⟩
        ⟨"a", "A", "Author", 0, 0, "", none, none⟩ = false :=
  ⟨by decide,
   (visibility_characterization.2 1990 2025
      ⟨"a", "A", "Author", 0, 0, "", none, none⟩).1 (by decide)⟩

/-- Membership in the hidden-id list: exactly the ids of nodes the
filters hide. -/
theorem mem_hiddenIds (ns : List JNode) (f : Filters) (x : String) :
    x ∈ hiddenIds ns f ↔ ∃ n ∈ ns, nodeVisible f n = false ∧ n.id = x := by
  unfold hiddenIds
  simp only [List.mem_map, List.mem_filter]
  constructor
  · rintro ⟨n, ⟨hn, hv⟩, rfl⟩
    exact ⟨n, hn, by simpa using hv, rfl⟩
  · rintro ⟨n, hn, hv, rfl⟩
    exact ⟨n, ⟨hn, by simpa using hv⟩, rfl⟩

/-- C3 counterexample: an edge whose target id occurs nowhere in the node
set is shown by `applyFilters` (a missing id is never collected into the
hidden-id set), while the claimed rule would hide it. -/
theorem edge_with_missing_endpoint_visible :
    edgeVisible [⟨"a", "A", "Author", 0, 0, "", none, none⟩]
        ⟨true, true, true, 1990, 2025⟩ ⟨"a", "zz"⟩ = true ∧
    specEdgeVisible [⟨"a", "A", "Author", 0, 0, "", none, none⟩]
        ⟨true, true, true, 1990, 2025⟩ ⟨"a", "zz"⟩ = false := by
  refine ⟨by decide, by decide⟩

/-- C3 amended: an edge is visible iff no node of the model that carries
one of its endpoint ids is hidden — so an endpoint id that does not occur
among the nodes never hides the edge (it is treated as an unconditionally
visible endpoint, matching the drawn-at-origin fallback), rather than as
a non-visible one. -/
theorem edge_visibility_characterization (ns : List JNode) (f : Filters) (e : JEdge) :
    edgeVisible ns f e = true ↔
      ∀ n ∈ ns, (n.id = e.source ∨ n.id = e.target) → nodeVisible f n = true := by
  unfold edgeVisible
  rw [Bool.not_eq_true', Bool.or_eq_false_iff]
  constructor
  · rintro ⟨h1, h2⟩ n hn hid
    by_contra hv
    have hv' : nodeVisible f n = false := by
      cases hvis : nodeVisible f n
      · rfl
      · exact absurd hvis hv
    rcases hid with hid | hid
    · have : e.source ∈ hiddenIds ns f := (mem_hiddenIds ns f e.source).2 ⟨n, hn, hv', hid⟩
      rw [← List.elem_iff] at this
      exact absurd this (by simpa using h1)
    · have : e.target ∈ hiddenIds ns f := (mem_hiddenIds ns f e.target).2 ⟨n, hn, hv', hid⟩
      rw [← List.elem_iff] at this
      exact absurd this (by simpa using h2)
  · intro h
    constructor
    · cases hc : (hiddenIds ns f).contains e.source
      · rfl
      · exfalso
        have : e.source ∈ hiddenIds ns f := by
          rw [← List.elem_iff]; simpa using hc
        rcases (mem_hiddenIds ns f e.source).1 this with ⟨n, hn, hv, hid⟩
        rw [h n hn (Or.inl hid)] at hv
        cases hv
    · cases hc : (hiddenIds ns f).contains e.target
      · rfl
      · exfalso
        have : e.target ∈ hiddenIds ns f := by
          rw [← List.elem_iff]; simpa using hc
        rcases (mem_hiddenIds ns f e.target).1 this with ⟨n, hn, hv, hid⟩
        rw [h n hn (Or.inr hid)] at hv
        cases hv

/-- C3 witness: the characterization evaluated on a one-node model and an
edge into a missing id — the edge is visible because the only condition
ranges over nodes that actually exist. -/
theorem edge_visibility_characterization_witness :
    edgeVisible [⟨"a", "A", "Author", 0, 0, "", none, none⟩]
        ⟨true, true, true, 1990, 2025⟩ ⟨"a", "zz"⟩ = true :=
  (edge_visibility_characterization [⟨"a", "A", "Author", 0, 0, "", none, none⟩]
      ⟨true, true, true, 1990, 2025⟩ ⟨"a", "zz"⟩).2 (by decide)

/-- Absent key characterization for the dict lookup. -/
theorem bagGet_eq_none (attrs : AttrBag) (k : String) :
    bagGet attrs k = none ↔ ∀ p ∈ attrs, p.1 ≠ k := by
  unfold bagGet
  simp [List.find?_eq_none]

/-- Absent lower-cased key characterization for the lower-key table. -/
theorem lowerKeysGet_eq_none (attrs : AttrBag) (lc : String) :
    lowerKeysGet attrs lc = none ↔ ∀ p ∈ attrs, lowerS p.1 ≠ lc := by
  unfold lowerKeysGet
  simp [List.find?_eq_none]

/-- A hit in the lower-key table names an actual key of the bag. -/
theorem lowerKeysGet_some_key (attrs : AttrBag) (lc k : String)
    (h : lowerKeysGet attrs lc = some k) : ∃ p ∈ attrs, p.1 = k := by
  unfold lowerKeysGet at h
  cases hf : attrs.reverse.find? (fun p => lowerS p.1 == lc) with
  | none => rw [hf] at h; cases h
  | some p =>
      rw [hf] at h
      cases h
      exact ⟨p, List.mem_reverse.1 (List.mem_of_find?_eq_some hf), rfl⟩

/-- Looking up an actual key of the bag yields a value. -/
theorem bagGet_isSome_of_mem (attrs : AttrBag) (k : String)
    (h : ∃ p ∈ attrs, p.1 = k) : ∃ v, bagGet attrs k = some v := by
  unfold bagGet
  rcases h with ⟨p, hp, rfl⟩
  have hs : (attrs.find? (fun q => q.1 == p.1)).isSome := by
    rw [List.find?_isSome]
    exact ⟨p, hp, by simp⟩
  rcases Option.isSome_iff_exists.1 hs with ⟨q, hq⟩
  exact ⟨q.2, by rw [hq]; rfl⟩

/-- The case-insensitive pass fails exactly when no candidate's
lower-casing is in the lower-key table. -/
theorem pass2_eq_none (attrs : AttrBag) (cs : List String) :
    pick_attr_pass2 attrs cs = none ↔
      ∀ c ∈ cs, lowerKeysGet attrs (lowerS c) = none := by
  induction cs with
  | nil => simp [pick_attr_pass2]
  | cons c cs ih =>
      cases hl : lowerKeysGet attrs (lowerS c) with
      | some k =>
          rcases bagGet_isSome_of_mem attrs k (lowerKeysGet_some_key attrs _ k hl) with ⟨v, hv⟩
          simp only [pick_attr_pass2, hl, hv]
          constructor
          · intro h; cases h
          · intro hall
            have := hall c (by simp)
            rw [hl] at this
            cases this
      | none =>
          simp only [pick_attr_pass2, hl]
          rw [ih]
          constructor
          · intro h x hx
            rcases List.mem_cons.1 hx with rfl | hx'
            · exact hl
            · exact h x hx'
          · intro h x hx
            exact h x (List.mem_cons_of_mem _ hx)

/-- The case-sensitive pass fails when every candidate is absent. -/
theorem pass1_eq_none_of (attrs : AttrBag) (cs : List String)
    (h : ∀ c ∈ cs, bagGet attrs c = none) : pick_attr_pass1 attrs cs = none := by
  induction cs with
  | nil => rfl
  | cons c cs ih =>
      have hc := h c (by simp)
      simp only [pick_attr_pass1, hc]
      exact ih (fun x hx => h x (by simp [hx]))

/-- The case-sensitive pass walks past every alias that is absent or
bound to an empty value. -/
theorem pass1_append_skip (attrs : AttrBag) (cs1 rest : List String)
    (h : ∀ c ∈ cs1, ∀ w, bagGet attrs c = some w → w = "") :
    pick_attr_pass1 attrs (cs1 ++ rest) = pick_attr_pass1 attrs rest := by
  induction cs1 with
  | nil => rfl
  | cons c t ih =>
      have ht : ∀ x ∈ t, ∀ w, bagGet attrs x = some w → w = "" :=
        fun x hx => h x (by simp [hx])
      cases hb : bagGet attrs c with
      | none =>
          simp only [List.cons_append, pick_attr_pass1, hb]
          exact ih ht
      | some w =>
          have hw : w = "" := h c (by simp) w hb
          subst hw
          simp only [List.cons_append, pick_attr_pass1, hb, if_pos rfl]
          exact ih ht

/-- The case-sensitive pass fails outright when every alias is absent or
bound to an empty value. -/
theorem pass1_eq_none_of_skipped (attrs : AttrBag) (cs : List String)
    (h : ∀ c ∈ cs, ∀ w, bagGet attrs c = some w → w = "") :
    pick_attr_pass1 attrs cs = none := by
  have h' := pass1_append_skip attrs cs [] (by simpa using h)
  rwa [List.append_nil] at h'

/-- The case-insensitive pass walks past every alias whose lower-casing
is absent from the lower-key table. -/
theorem pass2_append_skip (attrs : AttrBag) (cs1 rest : List String)
    (h : ∀ c ∈ cs1, lowerKeysGet attrs (lowerS c) = none) :
    pick_attr_pass2 attrs (cs1 ++ rest) = pick_attr_pass2 attrs rest := by
  induction cs1 with
  | nil => rfl
  | cons c t ih =>
      have hc := h c (by simp)
      simp only [List.cons_append, pick_attr_pass2, hc]
      exact ih (fun x hx => h x (by simp [hx]))

/-- An alias absent from the bag is skipped by the case-sensitive pass. -/
theorem skipped_of_bagGet_eq_none (attrs : AttrBag) (c : String)
    (h : bagGet attrs c = none) : ∀ w, bagGet attrs c = some w → w = "" := by
  intro w hw
  rw [h] at hw
  cases hw

/-- An alias bound to the empty value is skipped by the case-sensitive
pass. -/
theorem skipped_of_bagGet_eq_empty (attrs : AttrBag) (c : String)
    (h : bagGet attrs c = some "") : ∀ w, bagGet attrs c = some w → w = "" := by
  intro w hw
  rw [h] at hw
  injection hw with h2
  exact h2.symm

/-- C4 amended: in the case-sensitive pass the resolver returns the value
of the first alias (in list order) that is present with a non-empty
value, whatever precedes it being absent or empty; when that pass finds
nothing, the case-insensitive pass keys on presence alone and returns the
value held under the first alias whose lower-casing matches a key — even
when that value is the empty string (empty values are treated as absent
only in the first pass); the result is absent exactly when no alias
case-insensitively matches any key of the bag; and for alias list
`[a, b, c]` with only `B = "x"` in the bag it returns `"x"`. -/
theorem pick_attr_characterization :
    pick_attr [("B", "x")] ["a", "b", "c"] = some "x" ∧
    (∀ (attrs : AttrBag) (cs1 cs2 : List String) (c v : String),
        (∀ c' ∈ cs1, ∀ w, bagGet attrs c' = some w → w = "") →
        bagGet attrs c = some v → v ≠ "" →
        pick_attr attrs (cs1 ++ c :: cs2) = some v) ∧
    (∀ (attrs : AttrBag) (cs1 cs2 : List String) (c k : String),
        (∀ c' ∈ cs1 ++ c :: cs2, ∀ w, bagGet attrs c' = some w → w = "") →
        (∀ c' ∈ cs1, lowerKeysGet attrs (lowerS c') = none) →
        lowerKeysGet attrs (lowerS c) = some k →
        pick_attr attrs (cs1 ++ c :: cs2) = bagGet attrs k) ∧
    (∀ (attrs : AttrBag) (cs : List String),
        pick_attr attrs cs = none ↔ ∀ c ∈ cs, ∀ p ∈ attrs, lowerS p.1 ≠ lowerS c) := by
  refine ⟨by decide, ?_, ?_, ?_⟩
  · intro attrs cs1 cs2 c v hskip hv hne
    unfold pick_attr
    rw [pass1_append_skip attrs cs1 (c :: cs2) hskip]
    unfold pick_attr_pass1
    simp only [hv]
    rw [if_neg hne]
  · intro attrs cs1 cs2 c k hall hskip2 hk
    unfold pick_attr
    rw [pass1_eq_none_of_skipped attrs _ hall]
    show pick_attr_pass2 attrs (cs1 ++ c :: cs2) = bagGet attrs k
    rw [pass2_append_skip attrs cs1 (c :: cs2) hskip2]
    simp only [pick_attr_pass2, hk]
  · intro attrs cs
    constructor
    · intro h
      unfold pick_attr at h
      cases h1 : pick_attr_pass1 attrs cs with
      | some v => rw [h1] at h; cases h
      | none =>
          rw [h1] at h
          intro c hc p hp
          exact (lowerKeysGet_eq_none attrs (lowerS c)).1
            ((pass2_eq_none attrs cs).1 h c hc) p hp
    · intro hall
      have h1 : pick_attr_pass1 attrs cs = none := by
        apply pass1_eq_none_of
        intro c hc
        rw [bagGet_eq_none]
        intro p hp hpc
        exact hall c hc p hp (by rw [hpc])
      unfold pick_attr
      rw [h1]
      exact (pass2_eq_none attrs cs).2
        (fun c hc => (lowerKeysGet_eq_none attrs (lowerS c)).2
          (fun p hp => hall c hc p hp))

/-- C4 witness: the pass-1 rule applied where the first alias is bound to
an empty value and the second carries the result, and the pass-2 rule
applied to the spec's own example — only `B = "x"` in the bag, aliases
`[a, b, c]`, the value returned being the one held under key `B`. -/
theorem pick_attr_characterization_witness :
    pick_attr [("a", ""), ("b", "y")] ["a", "b"] = some "y" ∧
    pick_attr [("B", "x")] ["a", "b", "c"] = bagGet [("B", "x")] ("B") :=
  ⟨pick_attr_characterization.2.1 [("a", ""), ("b", "y")] ["a"] [] ("b") ("y")
      (by
        intro c' hc'
        have h : c' = "a" := by simpa using hc'
        subst h
        exact skipped_of_bagGet_eq_empty _ _ rfl)
      rfl (by decide),
   pick_attr_characterization.2.2.1 [("B", "x")] ["a"] ["c"] ("b") ("B")
      (by
        intro c' hc' w hw
        have h : c' = "a" ∨ c' = "b" ∨ c' = "c" := by simpa using hc'
        rcases h with rfl | rfl | rfl
        · exact skipped_of_bagGet_eq_none [("B", "x")] ("a") rfl w hw
        · exact skipped_of_bagGet_eq_none [("B", "x")] ("b") rfl w hw
        · exact skipped_of_bagGet_eq_none [("B", "x")] ("c") rfl w hw)
      (by
        intro c' hc'
        have h : c' = "a" := by simpa using hc'
        subst h
        rfl)
      rfl⟩

/-- C4 counterexample: a bag holding only an empty-valued key `a`.  The
case-sensitive pass skips it, but the case-insensitive pass returns the
empty string — the code does not treat empty values as absent in the
second pass, while the claimed contract returns absent. -/
theorem pick_attr_empty_value_returned :
    pick_attr [("a", "")] ["a"] = some "" ∧
    spec_pick_attr [("a", "")] ["a"] = none := by
  refine ⟨by decide, by decide⟩

/-- The nodes of the collected search results form a sublist of the node
list: results preserve node iteration order. -/
theorem searchLoop_nodes_sublist (q : String) (ns : List JNode) :
    List.Sublist ((searchLoop q ns).map (fun r => r.node)) ns := by
  induction ns with
  | nil => simp [searchLoop]
  | cons n t ih =>
      unfold searchLoop
      split
      · exact List.Sublist.cons₂ n ih
      · split
        · exact List.Sublist.cons₂ n ih
        · exact List.Sublist.cons n ih

/-- C8 counterexample: a query whose only occurrence in the flattened
search text lies beyond the 80-character truncation point produces a
"paper" result whose snippet does not contain the query (not even
case-insensitively), contradicting the claimed snippet property. -/
theorem search_snippet_misses_query :
    (searchRender
        [⟨"p1", "aaa", "", 0, 0, ⟨List.replicate 80 'x' ++ ("needle").data⟩, none, none⟩]
        ("needle")).map (fun r => (r.matchKind, r.snippet)) =
      [(MatchKind.paper, ⟨List.replicate 80 'x'⟩)] ∧
    jsIncludes (⟨List.replicate 80 'x'⟩ : String) ("needle") = false ∧
    jsIncludes (lowerS ⟨List.replicate 80 'x'⟩) (lowerS ("needle")) = false := by
  refine ⟨by decide, by decide, by decide⟩

/-- Completeness of the search loop for label matches: every node whose
lower-cased label contains the query contributes a "node" result. -/
theorem searchLoop_complete_node (q : String) (ns : List JNode) (n : JNode)
    (hn : n ∈ ns) (hlabel : jsIncludes (lowerS n.label) q = true) :
    (⟨n, MatchKind.node, ""⟩ : SearchResult) ∈ searchLoop q ns := by
  induction ns with
  | nil => cases hn
  | cons m t ih =>
      rcases List.mem_cons.1 hn with rfl | hn'
      · unfold searchLoop
        rw [if_pos hlabel]
        exact List.mem_cons_self _ _
      · have hmem := ih hn'
        unfold searchLoop
        by_cases h1 : jsIncludes (lowerS m.label) q = true
        · rw [if_pos h1]
          exact List.mem_cons_of_mem _ hmem
        · rw [if_neg h1]
          by_cases h2 : (m.searchText ≠ "" && jsIncludes (lowerS m.searchText) q) = true
          · rw [if_pos h2]
            exact List.mem_cons_of_mem _ hmem
          · rw [if_neg h2]
            exact hmem

/-- Completeness of the search loop for flattened-text matches: every
node whose label misses the query but whose non-empty search text
contains it contributes a "paper" result with the truncated snippet. -/
theorem searchLoop_complete_paper (q : String) (ns : List JNode) (n : JNode)
    (hn : n ∈ ns) (hlabel : jsIncludes (lowerS n.label) q = false)
    (hst : n.searchText ≠ "") (hq : jsIncludes (lowerS n.searchText) q = true) :
    (⟨n, MatchKind.paper,
      ⟨(((pySplit n.searchText (" | ")).find?
          (fun p => jsIncludes (lowerS p) q)).getD "").data.take 80⟩⟩ : SearchResult) ∈
      searchLoop q ns := by
  induction ns with
  | nil => cases hn
  | cons m t ih =>
      rcases List.mem_cons.1 hn with rfl | hn'
      · unfold searchLoop
        rw [if_neg (by simp [hlabel])]
        rw [if_pos (by rw [Bool.and_eq_true]; exact ⟨decide_eq_true hst, hq⟩)]
        exact List.mem_cons_self _ _
      · have hmem := ih hn'
        unfold searchLoop
        by_cases h1 : jsIncludes (lowerS m.label) q = true
        · rw [if_pos h1]
          exact List.mem_cons_of_mem _ hmem
        · rw [if_neg h1]
          by_cases h2 : (m.searchText ≠ "" && jsIncludes (lowerS m.searchText) q) = true
          · rw [if_pos h2]
            exact List.mem_cons_of_mem _ hmem
          · rw [if_neg h2]
            exact hmem

/-- C8 amended: search scans nodes in iteration order — a label match
yields a "node" result, otherwise a non-empty flattened search text
containing the query yields a "paper" result whose snippet is the first
80 characters of the first `" | "`-separated entry that contains the
query (so the query itself appears in the snippet only when it occurs
within those characters); every matching node contributes its result to
the collected list; results preserve node order, at most 30 are
rendered, and all collected results are rendered whenever at most 30
nodes match. -/
theorem search_results_characterization (ns : List JNode) (q : String) :
    (searchRender ns q).length ≤ 30 ∧
    List.Sublist ((searchRender ns q).map (fun r => r.node)) ns ∧
    (∀ r ∈ searchRender ns q,
        (jsIncludes (lowerS r.node.label) q = true ∧
          r.matchKind = MatchKind.node ∧ r.snippet = "") ∨
        (jsIncludes (lowerS r.node.label) q = false ∧
          r.node.searchText ≠ "" ∧
          jsIncludes (lowerS r.node.searchText) q = true ∧
          r.matchKind = MatchKind.paper ∧
          r.snippet =
            ⟨(((pySplit r.node.searchText (" | ")).find?
                (fun p => jsIncludes (lowerS p) q)).getD "").data.take 80⟩)) ∧
    (∀ n ∈ ns, jsIncludes (lowerS n.label) q = true →
        (⟨n, MatchKind.node, ""⟩ : SearchResult) ∈ searchLoop q ns) ∧
    (∀ n ∈ ns, jsIncludes (lowerS n.label) q = false →
        n.searchText ≠ "" → jsIncludes (lowerS n.searchText) q = true →
        (⟨n, MatchKind.paper,
          ⟨(((pySplit n.searchText (" | ")).find?
              (fun p => jsIncludes (lowerS p) q)).getD "").data.take 80⟩⟩ : SearchResult) ∈
          searchLoop q ns) ∧
    ((searchLoop q ns).length ≤ 30 → searchRender ns q = searchLoop q ns) := by
  refine ⟨?_, ?_, ?_, ?_, ?_, ?_⟩
  · unfold searchRender
    rw [List.length_take]
    exact min_le_left _ _
  · exact ((List.take_sublist 30 (searchLoop q ns)).map
      (fun r : SearchResult => r.node)).trans (searchLoop_nodes_sublist q ns)
  · intro r hr
    have hr' : r ∈ searchLoop q ns := List.mem_of_mem_take hr
    clear hr
    induction ns with
    | nil => cases hr'
    | cons n t ih =>
        unfold searchLoop at hr'
        by_cases h1 : jsIncludes (lowerS n.label) q = true
        · rw [if_pos h1] at hr'
          rcases List.mem_cons.1 hr' with rfl | hmem
          · exact Or.inl ⟨h1, rfl, rfl⟩
          · exact ih hmem
        · rw [if_neg h1] at hr'
          have h1' : jsIncludes (lowerS n.label) q = false := by
            simpa using h1
          by_cases h2 : (n.searchText ≠ "" && jsIncludes (lowerS n.searchText) q) = true
          · rw [if_pos h2] at hr'
            rcases List.mem_cons.1 hr' with rfl | hmem
            · rw [Bool.and_eq_true] at h2
              exact Or.inr ⟨h1', of_decide_eq_true h2.1, h2.2, rfl, rfl⟩
            · exact ih hmem
          · rw [if_neg h2] at hr'
            exact ih hr'
  · intro n hn hlabel
    exact searchLoop_complete_node q ns n hn hlabel
  · intro n hn hlabel hst hq
    exact searchLoop_complete_paper q ns n hn hlabel hst hq
  · intro h
    unfold searchRender
    exact List.take_of_length_le h

/-- C8 witness: the characterization applied to concrete one-node models
— the soundness part at a rendered result, the node- and
paper-completeness parts at a matching label and a matching search text,
and the everything-rendered part below the cap. -/
theorem search_results_characterization_witness :
    ((jsIncludes (lowerS ("abc")) ("a") = true ∧
        (MatchKind.node = MatchKind.node) ∧ ("" : String) = "") ∨
      (jsIncludes (lowerS ("abc")) ("a") = false ∧
        ("" : String) ≠ "" ∧
        jsIncludes (lowerS ("")) ("a") = true ∧
        (MatchKind.node = MatchKind.paper) ∧
        ("" : String) =
          ⟨(((pySplit ("") (" | ")).find?
              (fun p => jsIncludes (lowerS p) ("a"))).getD "").data.take 80⟩)) ∧
    (⟨⟨"n1", "abc", "", 0, 0, "", none, none⟩, MatchKind.node, ""⟩ : SearchResult) ∈
      searchLoop ("a") [⟨"n1", "abc", "", 0, 0, "", none, none⟩] ∧
    (⟨⟨"p2", "zzz", "", 0, 0, "hay needle", none, none⟩, MatchKind.paper,
        ⟨(((pySplit ("hay needle") (" | ")).find?
            (fun p => jsIncludes (lowerS p) ("needle"))).getD "").data.take 80⟩⟩ :
        SearchResult) ∈
      searchLoop ("needle") [⟨"p2", "zzz", "", 0, 0, "hay needle", none, none⟩] ∧
    searchRender [⟨"n1", "abc", "", 0, 0, "", none, none⟩] ("a") =
      searchLoop ("a") [⟨"n1", "abc", "", 0, 0, "", none, none⟩] :=
  ⟨(search_results_characterization [⟨"n1", "abc", "", 0, 0, "", none, none⟩] ("a")).2.2.1
     ⟨⟨"n1", "abc", "", 0, 0, "", none, none⟩, MatchKind.node, ""⟩ (by decide),
   (search_results_characterization [⟨"n1", "abc", "", 0, 0, "", none, none⟩]
       ("a")).2.2.2.1
     ⟨"n1", "abc", "", 0, 0, "", none, none⟩ (by decide) (by decide),
   (search_results_characterization [⟨"p2", "zzz", "", 0, 0, "hay needle", none, none⟩]
       ("needle")).2.2.2.2.1
     ⟨"p2", "zzz", "", 0, 0, "hay needle", none, none⟩ (by decide) (by decide) (by decide)
     (by decide),
   (search_results_characterization [⟨"n1", "abc", "", 0, 0, "", none, none⟩]
       ("a")).2.2.2.2.2 (by decide)⟩

end GraphD3
